import Mathlib

/-!
Verification of the ki-tracker occupancy dashboard and collector.

Shallow embedding of the JavaScript sources:
* `src/dashboard.js` — day bucketing, day normalization, peak extraction,
  interpolation, multi-chart cursor synchronization, data fetching;
* `src/collect.js` — retention pruning, gym-hours check, collection run;
* `src/scraper.js` — assembly of a parsed occupancy reading.

Instants are modelled as integer milliseconds since the Unix epoch
(JavaScript `Date.getTime()` values).  The browser's local timezone is
modelled as a fixed UTC offset `tz` in milliseconds; JavaScript's local
accessors (`getHours`, `setHours`, `toDateString`, ...) then become
arithmetic on `ms + tz`, while `toISOString` works on `ms` itself.
JavaScript numbers that can be fractional (interpolation factors and
interpolated values) are modelled as rationals.
-/

namespace KITracker

/-- Milliseconds per minute. -/
def msPerMinute : Int := 60000

/-- Milliseconds per hour. -/
def msPerHour : Int := 3600000

/-- Milliseconds per day. -/
def msPerDay : Int := 86400000

/-- Calendar-day index (days since 1970-01-01) of an instant in the local
timezone with UTC offset `tz` ms.  `Int` division is floor division for a
positive divisor, matching JavaScript `Date` semantics. -/
def localDay (tz ms : Int) : Int := (ms + tz) / msPerDay

/-- Millisecond offset of an instant into its local calendar day. -/
def timeOfDay (tz ms : Int) : Int := (ms + tz) % msPerDay

/-- Local hour of an instant (JavaScript `getHours`). -/
def localHour (tz ms : Int) : Int := timeOfDay tz ms / msPerHour

/-- Local minute of an instant (JavaScript `getMinutes`). -/
def localMinute (tz ms : Int) : Int := timeOfDay tz ms % msPerHour / msPerMinute

/-- The instant of local midnight of the local calendar day containing `ms`. -/
def localDayStart (tz ms : Int) : Int := localDay tz ms * msPerDay - tz

/-- Calendar-day index of an instant in UTC: the date part of
JavaScript `toISOString()`. -/
def utcDay (ms : Int) : Int := ms / msPerDay

/-- One occupancy sample, as stored in `data/history.json`:
`{ timestamp, lead, boulder, overall, openSectors }`.  Percentages may be
absent (`null`); `openSectors` is irrelevant to every claim and omitted. -/
structure Sample where
  timestamp : Int
  lead : Option Int
  boulder : Option Int
  overall : Option Int
deriving Repr, DecidableEq

/-! ## Day Bucketer (`groupDataByDay`, dashboard.js 112-123)

```js
function groupDataByDay(data) {
    const groups = {};
    data.forEach(entry => {
        const date = new Date(entry.timestamp);
        const key = date.toISOString().split('T')[0];
        if (!groups[key]) { groups[key] = []; }
        groups[key].push(entry);
    });
    return groups;
}
```

The string key `toISOString().split('T')[0]` is the UTC calendar date of
the timestamp, i.e. `utcDay`.  The object `groups` is modelled as an
association list in key-insertion order; `groups[key].push(entry)`
appends to the bucket of the key. -/

/-- `groups[key].push(entry)` on the association-list model: append `s` to
the bucket of key `k`, creating the bucket if absent. -/
def groupsPush (groups : List (Int × List Sample)) (k : Int) (s : Sample) :
    List (Int × List Sample) :=
  match groups with
  | [] => [(k, [s])]
  | (k0, l0) :: rest =>
      if k0 = k then (k0, l0 ++ [s]) :: rest
      else (k0, l0) :: groupsPush rest k s

/-- `groupDataByDay` from dashboard.js: fold every entry into the bucket of
the UTC calendar date of its timestamp. -/
def groupDataByDay (data : List Sample) : List (Int × List Sample) :=
  data.foldl (fun g s => groupsPush g (utcDay s.timestamp) s) []

/-- Reading a bucket out of the association-list model (`groups[key]`,
with `[]` for an absent key). -/
def bucketOf (groups : List (Int × List Sample)) (k : Int) : List Sample :=
  match groups with
  | [] => []
  | (k0, l0) :: rest => if k0 = k then l0 else bucketOf rest k

/-! ## Day Normalizer (`normalizeDayData`, dashboard.js 129-172)

```js
function normalizeDayData(rawData, dateStr) {
    const baseDate = new Date(dateStr);
    const startOfDay = new Date(baseDate); startOfDay.setHours(GYM_HOURS.start, 0, 0, 0);
    const endOfDay = new Date(baseDate);   endOfDay.setHours(GYM_HOURS.end, 0, 0, 0);
    let data = [...rawData];
    if (data.length === 0 || new Date(data[0].timestamp) > startOfDay) {
        data.unshift({ timestamp: startOfDay.toISOString(), lead: 0, boulder: 0 });
    }
    const now = new Date();
    const isToday = baseDate.toDateString() === now.toDateString();
    if (!isToday || (isToday && now.getHours() >= GYM_HOURS.end)) {
        if (data.length > 0 && new Date(data[data.length - 1].timestamp) < endOfDay) {
            data.push({ timestamp: endOfDay.toISOString(), lead: 0, boulder: 0 });
        }
    }
    return { labels, leadData, boulderData, minTime: startOfDay, maxTime: endOfDay };
}
```

`dateStr` is a `YYYY-MM-DD` string, which `new Date` parses as UTC
midnight of that date; it is modelled by the day index `dateDay`, so
`baseDate = dateDay * msPerDay`.  `setHours(h, 0, 0, 0)` keeps the local
calendar day and sets the local time of day to `h:00:00.000`.  The
parallel output arrays `labels` / `leadData` / `boulderData` are modelled
as one list of points. -/

/-- Gym opening hour used by the dashboard (`GYM_HOURS.start`). -/
def gymHoursStart : Int := 9

/-- Gym closing hour used by the dashboard (`GYM_HOURS.end`). -/
def gymHoursEnd : Int := 22

/-- One point of a normalized day series: one index of the parallel arrays
`labels` / `leadData` / `boulderData`. -/
structure NormPoint where
  timestamp : Int
  lead : Option Int
  boulder : Option Int
deriving Repr, DecidableEq

/-- Output of `normalizeDayData`. -/
structure NormalizedDay where
  points : List NormPoint
  minTime : Int
  maxTime : Int
deriving Repr, DecidableEq

/-- Projection of a stored sample onto the charted fields. -/
def toPoint (s : Sample) : NormPoint :=
  { timestamp := s.timestamp, lead := s.lead, boulder := s.boulder }

/-- `normalizeDayData` from dashboard.js.  `now` is the current instant
(`new Date()`), `dateDay` the day index of the `YYYY-MM-DD` argument. -/
def normalizeDayData (tz now : Int) (rawData : List Sample) (dateDay : Int) :
    NormalizedDay :=
  let baseDate := dateDay * msPerDay
  let startOfDay := localDayStart tz baseDate + gymHoursStart * msPerHour
  let endOfDay := localDayStart tz baseDate + gymHoursEnd * msPerHour
  let data0 := rawData.map toPoint
  let data1 :=
    match data0 with
    | [] => [{ timestamp := startOfDay, lead := some 0, boulder := some 0 }]
    | first :: _ =>
        if startOfDay < first.timestamp then
          { timestamp := startOfDay, lead := some 0, boulder := some 0 } :: data0
        else data0
  let isToday := localDay tz baseDate = localDay tz now
  let data2 :=
    if ¬ isToday ∨ (isToday ∧ gymHoursEnd ≤ localHour tz now) then
      match data1.getLast? with
      | some last =>
          if last.timestamp < endOfDay then
            data1 ++ [{ timestamp := endOfDay, lead := some 0, boulder := some 0 }]
          else data1
      | none => data1
    else data1
  { points := data2, minTime := startOfDay, maxTime := endOfDay }

/-! ## Multi-Chart Cursor Synchronizer (`syncCharts`, dashboard.js 344-383)

```js
function syncCharts(sourceChart, time) {
    let hours = 0, minutes = 0;
    if (time) {
        const d = new Date(time);
        hours = d.getHours();
        minutes = d.getMinutes();
    }
    charts.forEach(chart => {
        if (chart === sourceChart) return;
        if (chart.destroyed) return;
        if (time === null) {
            chart.crosshair = { active: false };
        } else {
            const minTime = chart.scales.x.min;
            const targetDate = new Date(minTime);
            targetDate.setHours(hours, minutes, 0, 0);
            const targetTime = targetDate.getTime();
            if (targetTime >= chart.scales.x.min && targetTime <= chart.scales.x.max) {
                chart.crosshair = { active: true, time: targetTime };
            } else {
                chart.crosshair = { active: false };
            }
        }
        chart.draw();
    });
}
```

The crosshair object `{active, time}` is modelled as `Crosshair`; the
global `charts` array as an explicit list; object identity
`chart === sourceChart` via an `id` field.  JavaScript's `if (time)` is
truthiness: it is false both for `null` and for the number `0`. -/

/-- Per-chart cursor state: `{active: false}` or `{active: true, time}`. -/
inductive Crosshair where
  | idle : Crosshair
  | activeAt : Int → Crosshair
deriving Repr, DecidableEq

/-- The per-chart state read and written by `syncCharts`:
x-scale bounds, the Chart.js `destroyed` flag, and the crosshair. -/
structure SyncChart where
  id : Nat
  xMin : Int
  xMax : Int
  destroyed : Bool
  crosshair : Crosshair
deriving Repr, DecidableEq

/-- `d.setHours(h, m, 0, 0)` on an instant `ms`: local midnight of `ms`'s
local day, plus `h` hours and `m` minutes. -/
def setLocalHM (tz ms h m : Int) : Int :=
  localDayStart tz ms + h * msPerHour + m * msPerMinute

/-- The per-chart body of the `charts.forEach` loop in `syncCharts`, after
the source / destroyed guards. -/
def syncOne (tz hours minutes : Int) (time : Option Int) (chart : SyncChart) :
    SyncChart :=
  match time with
  | none => { chart with crosshair := .idle }
  | some _ =>
      let targetTime := setLocalHM tz chart.xMin hours minutes
      if chart.xMin ≤ targetTime ∧ targetTime ≤ chart.xMax then
        { chart with crosshair := .activeAt targetTime }
      else
        { chart with crosshair := .idle }

/-- `syncCharts` from dashboard.js, acting on the global `charts` list. -/
def syncCharts (tz : Int) (charts : List SyncChart) (sourceId : Nat)
    (time : Option Int) : List SyncChart :=
  let hm : Int × Int :=
    match time with
    | some t => if t = 0 then (0, 0) else (localHour tz t, localMinute tz t)
    | none => (0, 0)
  charts.map fun chart =>
    if chart.id = sourceId then chart
    else if chart.destroyed then chart
    else syncOne tz hm.1 hm.2 time chart

/-! ## Interpolation Engine (dashboard.js 180-218)

```js
function interpolateValue(start, end, factor) {
    if (start === null || end === null) return 0;
    return start + (end - start) * factor;
}

function getInterpolatedValues(chart, timeValue) {
    const time = new Date(timeValue).getTime();
    const timestamps = chart.data.labels.map(d => d.getTime());
    let index = -1;
    for (let i = 0; i < timestamps.length - 1; i++) {
        if (time >= timestamps[i] && time <= timestamps[i + 1]) { index = i; break; }
    }
    if (index === -1) return null;
    const tStart = timestamps[index];
    const tEnd = timestamps[index + 1];
    const range = tEnd - tStart;
    const factor = range === 0 ? 0 : (time - tStart) / range;
    return {
        lead: interpolateValue(leadDataset.data[index], leadDataset.data[index + 1], factor),
        boulder: interpolateValue(boulderDataset.data[index], boulderDataset.data[index + 1], factor)
    };
}
```

The chart carries the labels and the two datasets produced from a
`NormalizedDay` by `createDayChart`.  The interpolation factor and the
interpolated values are fractional JavaScript numbers, modelled as `ℚ`. -/

/-- The chart data read by `getInterpolatedValues`: the time labels and
the `Lead` / `Boulder` dataset value arrays. -/
structure ChartSeries where
  labels : List Int
  leadData : List (Option Int)
  boulderData : List (Option Int)
deriving Repr, DecidableEq

/-- How `createDayChart` populates a chart from a normalized day series. -/
def toChartSeries (nd : NormalizedDay) : ChartSeries :=
  { labels := nd.points.map NormPoint.timestamp
    leadData := nd.points.map NormPoint.lead
    boulderData := nd.points.map NormPoint.boulder }

/-- The bracketing scan of `getInterpolatedValues`: the first `i` with
`timestamps[i] ≤ time ≤ timestamps[i+1]`, or `none`.  `i` accumulates the
index of the head of the remaining list. -/
def findBracket : List Int → Int → Nat → Option Nat
  | t0 :: t1 :: rest, time, i =>
      if t0 ≤ time ∧ time ≤ t1 then some i
      else findBracket (t1 :: rest) time (i + 1)
  | _, _, _ => none

/-- `interpolateValue` from dashboard.js: a `null` endpoint interpolates
to 0, otherwise linear interpolation. -/
def interpolateValue (startVal endVal : Option Int) (factor : ℚ) : ℚ :=
  match startVal, endVal with
  | some s, some e => (s : ℚ) + ((e : ℚ) - (s : ℚ)) * factor
  | _, _ => 0

/-- `getInterpolatedValues` from dashboard.js. -/
def getInterpolatedValues (c : ChartSeries) (time : Int) : Option (ℚ × ℚ) :=
  match findBracket c.labels time 0 with
  | none => none
  | some index =>
      let tStart := c.labels.getD index 0
      let tEnd := c.labels.getD (index + 1) 0
      let range := tEnd - tStart
      let factor : ℚ := if range = 0 then 0 else ((time - tStart : Int) : ℚ) / ((range : Int) : ℚ)
      some (interpolateValue (c.leadData.getD index none) (c.leadData.getD (index + 1) none) factor,
            interpolateValue (c.boulderData.getD index none) (c.boulderData.getD (index + 1) none) factor)

/-! ## Peak Extractor (`calculatePeaksForDay`, dashboard.js 485-507)

```js
function calculatePeaksForDay(dayData) {
    const validLeadEntries = dayData.filter(e => e.lead != null && e.lead > 0);
    const validBoulderEntries = dayData.filter(e => e.boulder != null && e.boulder > 0);
    let maxLead = null, maxLeadTime = null, maxBoulder = null, maxBoulderTime = null;
    if (validLeadEntries.length > 0) {
        const maxEntry = validLeadEntries.reduce((max, e) => e.lead > max.lead ? e : max);
        maxLead = maxEntry.lead;
        maxLeadTime = new Date(maxEntry.timestamp);
    }
    if (validBoulderEntries.length > 0) {
        const maxEntry = validBoulderEntries.reduce((max, e) => e.boulder > max.boulder ? e : max);
        maxBoulder = maxEntry.boulder;
        maxBoulderTime = new Date(maxEntry.timestamp);
    }
    return { maxLead, maxBoulder, maxLeadTime, maxBoulderTime };
}
```
-/

/-- Result record of the peak extractor. -/
structure DailyPeak where
  maxLead : Option Int
  maxLeadTime : Option Int
  maxBoulder : Option Int
  maxBoulderTime : Option Int
deriving Repr, DecidableEq

/-- The filter `e => e.X != null && e.X > 0` applied to series `proj`
(`Sample.lead` resp. `Sample.boulder`). -/
def seriesQual (proj : Sample → Option Int) (e : Sample) : Bool :=
  (proj e).isSome && decide (0 < (proj e).getD 0)

/-- JavaScript's no-initial-value `reduce((max, e) => val e > val max ? e : max)`
on the nonempty list `h :: t`: ties keep the earlier (leftmost) entry. -/
def reduceMaxBy (val : Sample → Int) (h : Sample) (t : List Sample) : Sample :=
  t.foldl (fun acc e => if val acc < val e then e else acc) h

/-- The per-series body of `calculatePeaksForDay` (the JavaScript source
spells it out once for `lead` and once for `boulder`): filter, then
leftmost-max reduce; `(none, none)` when nothing qualifies. -/
def seriesPeak (proj : Sample → Option Int) (dayData : List Sample) :
    Option Int × Option Int :=
  match dayData.filter (seriesQual proj) with
  | [] => (none, none)
  | h :: t =>
      let maxEntry := reduceMaxBy (fun e => (proj e).getD 0) h t
      (proj maxEntry, some maxEntry.timestamp)

/-- `calculatePeaksForDay` from dashboard.js. -/
def calculatePeaksForDay (dayData : List Sample) : DailyPeak :=
  { maxLead := (seriesPeak Sample.lead dayData).1
    maxLeadTime := (seriesPeak Sample.lead dayData).2
    maxBoulder := (seriesPeak Sample.boulder dayData).1
    maxBoulderTime := (seriesPeak Sample.boulder dayData).2 }

/-! ## Data fetching (`fetchData`, dashboard.js 33-50)

```js
async function fetchData() {
    try {
        const [historyResponse, statusResponse] = await Promise.all([
            fetch('./data/history.json?' + Date.now()),
            fetch('./data/status.json?' + Date.now()).catch(() => ({ ok: false }))
        ]);
        if (!historyResponse.ok) throw new Error('Failed to fetch data');
        historyData = await historyResponse.json();
        const statusData = statusResponse.ok ? await statusResponse.json() : null;
        return { history: historyData, status: statusData };
    } catch (error) {
        return { history: [], status: null };
    }
}
```

A fetch is modelled by its observable outcome: the promise rejects, the
response is non-OK, or it is OK with a body whose `json()` either parses
(`okBody (some v)`) or throws (`okBody none`).  The caller `refresh()`
consumes the returned record, so `fetchData` is modelled as the function
from the two fetch outcomes to that record. -/

/-- Observable outcome of one `fetch(...)` of a JSON resource. -/
inductive FetchOutcome (α : Type) where
  | rejected : FetchOutcome α
  | notOk : FetchOutcome α
  | okBody : Option α → FetchOutcome α
deriving Repr, DecidableEq

/-- The run-status record in `data/status.json` (fields irrelevant to the
claims are omitted). -/
structure StatusRecord where
  lastRun : Int
  success : Bool
deriving Repr, DecidableEq

/-- `fetchData` from dashboard.js as a function of the two fetch
outcomes.  The `.catch(() => ({ok: false}))` on the status fetch turns a
rejection into a non-OK response; any exception inside the `try` (history
fetch rejection via `Promise.all`, non-OK history response, or a `json()`
parse error of either body) lands in the `catch`, which returns
`{history: [], status: null}`. -/
def fetchData (historyResp : FetchOutcome (List Sample))
    (statusResp : FetchOutcome StatusRecord) :
    List Sample × Option StatusRecord :=
  let statusResponse : FetchOutcome StatusRecord :=
    match statusResp with
    | .rejected => .notOk
    | r => r
  match historyResp with
  | .rejected => ([], none)
  | .notOk => ([], none)
  | .okBody none => ([], none)
  | .okBody (some historyData) =>
      match statusResponse with
      | .okBody (some statusData) => (historyData, some statusData)
      | .okBody none => ([], none)
      | _ => (historyData, none)

/-! ## Scraper parsing (`parseOccupancyData`, scraper.js 94-156)

The cheerio HTML extraction is abstracted into the two extracted
percentages; the modelled part is the assembly of the reading
(scraper.js 142-147):

```js
if (result.lead !== null && result.boulder !== null) {
    result.overall = Math.round((result.lead + result.boulder) / 2);
} else {
    result.overall = result.lead ?? result.boulder;
}
```
-/

/-- JavaScript `Math.round`: round half toward positive infinity. -/
def jsRound (q : ℚ) : Int := ⌊q + 1/2⌋

/-- A parsed occupancy reading (timestamp is attached later by
`scrapeOccupancy`). -/
structure OccupancyReading where
  lead : Option Int
  boulder : Option Int
  overall : Option Int
deriving Repr, DecidableEq

/-- `parseOccupancyData` from scraper.js, abstracted over the two
percentages extracted from the HTML. -/
def parseOccupancyData (lead boulder : Option Int) : OccupancyReading :=
  { lead := lead
    boulder := boulder
    overall :=
      match lead, boulder with
      | some l, some b => some (jsRound (((l : ℚ) + (b : ℚ)) / 2))
      | _, _ => lead <|> boulder }

/-- The spec's data-model invariant on `overall`, stated from the spec's
words: the rounded mean of `lead` / `boulder` when both present, else
whichever is present, else null. -/
def specOverallInvariant (lead boulder overall : Option Int) : Prop :=
  match lead, boulder with
  | some l, some b => overall = some (jsRound (((l : ℚ) + (b : ℚ)) / 2))
  | some l, none => overall = some l
  | none, some b => overall = some b
  | none, none => overall = none

/-! ## Collector (`collect.js`)

```js
export function pruneOldData(data, maxDays) {
    const cutoff = new Date();
    cutoff.setDate(cutoff.getDate() - maxDays);
    return data.filter(entry => new Date(entry.timestamp) > cutoff);
}
```

`setDate(getDate() - maxDays)` moves the instant exactly `maxDays`
calendar days back at the same local wall-clock time; in the fixed-offset
timezone model that is `now - maxDays * msPerDay`. -/

/-- `pruneOldData` from collect.js (`now` is the current instant). -/
def pruneOldData (now : Int) (data : List Sample) (maxDays : Int) : List Sample :=
  data.filter fun e => decide (now - maxDays * msPerDay < e.timestamp)

/-- Retention window `MAX_DAYS = 7` from collect.js. -/
def maxDays : Int := 7

/-- Civil calendar date `(year, month, day)` of a day index (days since
1970-01-01), proleptic Gregorian; models JavaScript `getMonth() + 1` and
`getDate()`.  All divisions act on non-negative operands after the era
shift, so `Int` floor division matches the usual integer algorithm. -/
def civilFromDays (z : Int) : Int × Int × Int :=
  let z' := z + 719468
  let era := z' / 146097
  let doe := z' % 146097
  let yoe := (doe - doe / 1460 + doe / 36524 - doe / 146096) / 365
  let y := yoe + era * 400
  let doy := doe - (365 * yoe + yoe / 4 - yoe / 100)
  let mp := (5 * doy + 2) / 153
  let d := doy - (153 * mp + 2) / 5 + 1
  let m := if mp < 10 then mp + 3 else mp - 9
  (if m ≤ 2 then y + 1 else y, m, d)

/-- The date-keyed holiday-hours exception table `HOURS.exceptions` from
collect.js, keyed by `MM-DD`. -/
def hoursException (month day : Int) : Option (Int × Int) :=
  if month = 12 ∧ day = 24 then some (9, 14)
  else if month = 12 ∧ day = 25 then some (14, 22)
  else if month = 12 ∧ day = 31 then some (9, 14)
  else if month = 1 ∧ day = 1 then some (14, 22)
  else none

/-- `isGymOpen` from collect.js: look up the `MM-DD` key of the current
local date in the exception table, fall back to the standard hours
`{start: 9, end: 22}`, and test `start <= hour < end`. -/
def isGymOpen (tz now : Int) : Bool :=
  let md := civilFromDays (localDay tz now)
  let config := (hoursException md.2.1 md.2.2).getD (9, 22)
  decide (config.1 ≤ localHour tz now ∧ localHour tz now < config.2)

/-- The zero-occupancy marker sample recorded while the gym is closed
(collect.js 104-110). -/
def zeroMarker (now : Int) : Sample :=
  { timestamp := now, lead := some 0, boulder := some 0, overall := some 0 }

/-- Observable outcome of one `collect()` run: an early return with no
file writes, a failure (scrape threw; only an error status is written), or
a write of the new history file together with the sample recorded in the
status file. -/
inductive CollectResult where
  | skipped : CollectResult
  | failed : CollectResult
  | wrote : List Sample → Sample → CollectResult
deriving Repr, DecidableEq

/-- `collect` from collect.js as a state transition on the history read
from disk.  `scraped` is the outcome of `scrapeOccupancy()` (`none` if it
threw); it is consulted only while the gym is open. -/
def collect (tz now : Int) (scraped : Option Sample) (history : List Sample) :
    CollectResult :=
  if isGymOpen tz now then
    match scraped with
    | some newData => .wrote (pruneOldData now (history ++ [newData]) maxDays) newData
    | none => .failed
  else
    match history.getLast? with
    | some lastEntry =>
        if lastEntry.overall = some 0 then .skipped
        else .wrote (pruneOldData now (history ++ [zeroMarker now]) maxDays) (zeroMarker now)
    | none => .wrote (pruneOldData now (history ++ [zeroMarker now]) maxDays) (zeroMarker now)

/-! ## Theorems -/

theorem bucketOf_groupsPush (groups : List (Int × List Sample)) (k k' : Int)
    (s : Sample) :
    bucketOf (groupsPush groups k s) k'
      = bucketOf groups k' ++ (if k = k' then [s] else []) := by
  induction groups with
  | nil =>
      by_cases h : k = k' <;> simp [groupsPush, bucketOf, h]
  | cons p rest ih =>
      obtain ⟨k0, l0⟩ := p
      by_cases h0 : k0 = k
      · subst h0
        by_cases h' : k0 = k' <;> simp [groupsPush, bucketOf, h']
      · by_cases h' : k0 = k'
        · subst h'
          have hk : ¬ k = k0 := fun h => h0 h.symm
          simp [groupsPush, bucketOf, h0, hk]
        · simp [groupsPush, bucketOf, h0, h', ih]

theorem bucketOf_fold (data : List Sample) (g : List (Int × List Sample))
    (k : Int) :
    bucketOf (data.foldl (fun g s => groupsPush g (utcDay s.timestamp) s) g) k
      = bucketOf g k ++ data.filter (fun s => utcDay s.timestamp = k) := by
  induction data generalizing g with
  | nil => simp
  | cons s rest ih =>
      simp only [List.foldl_cons, ih, bucketOf_groupsPush]
      by_cases h : utcDay s.timestamp = k
      · simp [h, List.filter_cons]
      · simp [h, List.filter_cons]

/-- C1 (amended): the Day Bucketer assigns every sample to the bucket
keyed by the UTC calendar date of its timestamp (the date part of
`toISOString()`), not the local calendar date; the bucket of each key is
exactly the subsequence of the input with that key, so the operation is
deterministic, has no side effects, and keeps the samples of each bucket
in their original relative order. -/
theorem groupDataByDay_buckets_utc (data : List Sample) (k : Int) :
    bucketOf (groupDataByDay data) k
      = data.filter (fun s => utcDay s.timestamp = k) := by
  simpa using bucketOf_fold data [] k

/-- C1 counterexample: a sample taken at 23:00 UTC in a local timezone at
UTC+2 falls on the next local calendar day, yet `groupDataByDay` files it
under the UTC date: the bucket of its local date is empty and the bucket
of its UTC date holds it, refuting the claim that the key is the local
calendar date. -/
theorem groupDataByDay_local_date_cex :
    localDay 7200000 (20000 * msPerDay + 23 * msPerHour)
        ≠ utcDay (20000 * msPerDay + 23 * msPerHour)
    ∧ bucketOf
        (groupDataByDay
          [{ timestamp := 20000 * msPerDay + 23 * msPerHour,
             lead := some 50, boulder := some 60, overall := some 55 }])
        (localDay 7200000 (20000 * msPerDay + 23 * msPerHour)) = []
    ∧ bucketOf
        (groupDataByDay
          [{ timestamp := 20000 * msPerDay + 23 * msPerHour,
             lead := some 50, boulder := some 60, overall := some 55 }])
        (utcDay (20000 * msPerDay + 23 * msPerHour))
      = [{ timestamp := 20000 * msPerDay + 23 * msPerHour,
           lead := some 50, boulder := some 60, overall := some 55 }] := by
  refine ⟨by decide, by decide, by decide⟩

/-- C7 (amended): when the history fetch succeeds and its body decodes,
a *fetch* failure of the status resource (network rejection, absorbed by
the `.catch`, or a non-OK response) is non-fatal: the dashboard proceeds
with the fetched history and `status = null`. -/
theorem fetchData_status_fetch_failure_nonfatal (h : List Sample) :
    fetchData (.okBody (some h)) .rejected = (h, none)
    ∧ fetchData (.okBody (some h)) .notOk = (h, none) :=
  ⟨rfl, rfl⟩

/-- C7 counterexample: a status body that fails to *decode* (its `json()`
throws inside the `try`) is caught by the catch-all, which returns
`{history: [], status: null}` — the successfully fetched history is
discarded, refuting the claim for the decoding-failure case. -/
theorem fetchData_status_decode_failure_cex :
    fetchData
        (.okBody (some [{ timestamp := 0, lead := some 1, boulder := some 1,
                          overall := some 1 }]))
        (.okBody none)
      = ([], none)
    ∧ [({ timestamp := 0, lead := some 1, boulder := some 1,
          overall := some 1 } : Sample)] ≠ [] := by
  exact ⟨rfl, by decide⟩

/-- C8: every occupancy reading assembled by the scraper's parser, and the
zero marker appended by the collector, satisfy the data-model invariant:
`overall` is the rounded mean of `lead` and `boulder` when both are
present, else whichever is present, else null. -/
theorem parseOccupancyData_overall_invariant (lead boulder : Option Int) (now : Int) :
    specOverallInvariant lead boulder (parseOccupancyData lead boulder).overall
    ∧ specOverallInvariant (zeroMarker now).lead (zeroMarker now).boulder
        (zeroMarker now).overall := by
  constructor
  · cases lead <;> cases boulder <;>
      simp [parseOccupancyData, specOverallInvariant, Option.orElse]
  · show (some 0 : Option Int) = some (jsRound ((0 + 0) / 2))
    norm_num [jsRound]

/-- C9: pruning keeps exactly the entries whose timestamp is inside the
retention window (newer than `now` minus `maxDays` days) and removes all
the others, and the result is a sublist of the input, so the relative
order of the surviving entries is preserved; in particular with retention
7 days a sample from 2 days ago survives and a sample from 8 days ago is
removed. -/
theorem pruneOldData_spec (now : Int) (data : List Sample) (maxD : Int) :
    (pruneOldData now data maxD).Sublist data
    ∧ (∀ e, e ∈ pruneOldData now data maxD
        ↔ e ∈ data ∧ now - maxD * msPerDay < e.timestamp)
    ∧ (∀ a b : Sample, a.timestamp = now - 2 * msPerDay →
        b.timestamp = now - 8 * msPerDay → pruneOldData now [a, b] 7 = [a]) := by
  refine ⟨List.filter_sublist _, ?_, ?_⟩
  · intro e
    simp [pruneOldData, List.mem_filter]
  · intro a b ha hb
    have hka : now - 7 * msPerDay < a.timestamp := by
      rw [ha]; simp only [msPerDay]; omega
    have hkb : ¬ now - 7 * msPerDay < b.timestamp := by
      rw [hb]; simp only [msPerDay]; omega
    simp [pruneOldData, List.filter, hka, hkb]

theorem getLast?_map_eq {α β : Type} (f : α → β) :
    ∀ l : List α, (l.map f).getLast? = l.getLast?.map f
  | [] => rfl
  | [_] => rfl
  | a :: b :: l => by
      rw [List.map_cons, List.map_cons, List.getLast?_cons_cons,
        List.getLast?_cons_cons, ← List.map_cons]
      exact getLast?_map_eq f (b :: l)

/-- The gym-closing comparison `now.getHours() >= GYM_HOURS.end` is the
same as comparing `now` against the closing instant of `now`'s own local
day. -/
theorem hourEnd_le_localHour_iff (tz now : Int) :
    gymHoursEnd ≤ localHour tz now
      ↔ localDayStart tz now + gymHoursEnd * msPerHour ≤ now := by
  simp only [gymHoursEnd, localHour, timeOfDay, localDayStart, localDay,
    msPerDay, msPerHour]
  omega

/-- The boolean guard of the trailing-point synthesis in
`normalizeDayData`, rephrased from local-hour arithmetic to instants:
append iff the chart's day is not the current local day, or the current
instant is at or past the chart day's closing instant. -/
theorem normalize_trailing_guard_iff (tz now base : Int) :
    ((¬ localDay tz base = localDay tz now
        ∨ (localDay tz base = localDay tz now ∧ gymHoursEnd ≤ localHour tz now))
      ↔ (localDay tz base ≠ localDay tz now
          ∨ localDayStart tz base + gymHoursEnd * msPerHour ≤ now)) := by
  by_cases hT : localDay tz base = localDay tz now
  · have hstart : localDayStart tz base = localDayStart tz now := by
      simp [localDayStart, hT]
    rw [hstart]
    simp [hT, hourEnd_le_localHour_iff]
  · simp [hT]

/-- C3 (amended): for a nonempty day bucket, `normalizeDayData` appends
the synthesized trailing point `(closeTime, 0, 0)` if and only if the day
being normalized is *not the current local calendar date* (past or
future), or it is the current date and the current instant is at or past
`closeTime`; and, in either case, the last existing sample's timestamp is
before `closeTime`.  The rest of the output is the input bucket, with the
leading `(openTime, 0, 0)` point prepended exactly when the first sample
is after `openTime`. -/
theorem normalizeDayData_trailing (tz now dateDay : Int) (rawData : List Sample)
    (first lastS : Sample) (hfirst : rawData.head? = some first)
    (hlast : rawData.getLast? = some lastS) :
    (normalizeDayData tz now rawData dateDay).points
      = (if localDayStart tz (dateDay * msPerDay) + gymHoursStart * msPerHour
            < first.timestamp
         then { timestamp := localDayStart tz (dateDay * msPerDay)
                  + gymHoursStart * msPerHour,
                lead := some 0, boulder := some 0 } :: rawData.map toPoint
         else rawData.map toPoint)
        ++ (if (localDay tz (dateDay * msPerDay) ≠ localDay tz now
                  ∨ localDayStart tz (dateDay * msPerDay) + gymHoursEnd * msPerHour
                      ≤ now)
               ∧ lastS.timestamp
                   < localDayStart tz (dateDay * msPerDay) + gymHoursEnd * msPerHour
            then [{ timestamp := localDayStart tz (dateDay * msPerDay)
                      + gymHoursEnd * msPerHour,
                    lead := some 0, boulder := some 0 }]
            else []) := by
  cases rawData with
  | nil => simp at hfirst
  | cons f rest =>
      have hf : first = f := by
        have h0 := hfirst
        simp only [List.head?, Option.some.injEq] at h0
        exact h0.symm
      subst hf
      have hlast1 :
          ((first :: rest).map toPoint).getLast? = some (toPoint lastS) := by
        rw [getLast?_map_eq, hlast, Option.map_some']
      simp only [normalizeDayData, List.map_cons]
      by_cases hS : localDayStart tz (dateDay * msPerDay) + gymHoursStart * msPerHour
          < first.timestamp
      · simp only [toPoint, if_pos hS]
        have hlast2 :
            ({ timestamp := localDayStart tz (dateDay * msPerDay)
                 + gymHoursStart * msPerHour,
               lead := some 0, boulder := some 0 } ::
                ({ timestamp := first.timestamp, lead := first.lead,
                   boulder := first.boulder } : NormPoint) :: rest.map toPoint).getLast?
              = some (toPoint lastS) := by
          rw [List.getLast?_cons_cons]
          simpa [toPoint] using hlast1
        rw [hlast2]
        by_cases hG : ¬ localDay tz (dateDay * msPerDay) = localDay tz now
            ∨ (localDay tz (dateDay * msPerDay) = localDay tz now
                ∧ gymHoursEnd ≤ localHour tz now)
        · have hG' := (normalize_trailing_guard_iff tz now (dateDay * msPerDay)).mp hG
          by_cases hL : lastS.timestamp
              < localDayStart tz (dateDay * msPerDay) + gymHoursEnd * msPerHour
          · simp [hG, hG', hL, toPoint]
          · simp [hG, hG', hL, toPoint]
        · have hG' : ¬ (localDay tz (dateDay * msPerDay) ≠ localDay tz now
              ∨ localDayStart tz (dateDay * msPerDay) + gymHoursEnd * msPerHour ≤ now) :=
            fun hc => hG ((normalize_trailing_guard_iff tz now (dateDay * msPerDay)).mpr hc)
          simp [hG, hG']
      · simp only [toPoint, if_neg hS]
        have hlast2 :
            (({ timestamp := first.timestamp, lead := first.lead,
                boulder := first.boulder } : NormPoint) :: rest.map toPoint).getLast?
              = some (toPoint lastS) := by
          simpa [toPoint] using hlast1
        rw [hlast2]
        by_cases hG : ¬ localDay tz (dateDay * msPerDay) = localDay tz now
            ∨ (localDay tz (dateDay * msPerDay) = localDay tz now
                ∧ gymHoursEnd ≤ localHour tz now)
        · have hG' := (normalize_trailing_guard_iff tz now (dateDay * msPerDay)).mp hG
          by_cases hL : lastS.timestamp
              < localDayStart tz (dateDay * msPerDay) + gymHoursEnd * msPerHour
          · simp [hG, hG', hL, toPoint]
          · simp [hG, hG', hL, toPoint]
        · have hG' : ¬ (localDay tz (dateDay * msPerDay) ≠ localDay tz now
              ∨ localDayStart tz (dateDay * msPerDay) + gymHoursEnd * msPerHour ≤ now) :=
            fun hc => hG ((normalize_trailing_guard_iff tz now (dateDay * msPerDay)).mpr hc)
          simp [hG, hG']

/-- C3 witness: one sample at 10:00 on today's chart (UTC timezone, epoch
day 0), queried at 23:00 — past closing — yields the leading point, the
sample, and the synthesized trailing point. -/
theorem normalizeDayData_trailing_witness :
    (normalizeDayData 0 (23 * msPerHour)
        [{ timestamp := 10 * msPerHour, lead := some 50, boulder := some 60,
           overall := some 55 }] 0).points
      = [{ timestamp := 9 * msPerHour, lead := some 0, boulder := some 0 },
         { timestamp := 10 * msPerHour, lead := some 50, boulder := some 60 },
         { timestamp := 22 * msPerHour, lead := some 0, boulder := some 0 }] := by
  have h := normalizeDayData_trailing 0 (23 * msPerHour) 0
      [{ timestamp := 10 * msPerHour, lead := some 50, boulder := some 60,
         overall := some 55 }]
      { timestamp := 10 * msPerHour, lead := some 50, boulder := some 60,
        overall := some 55 }
      { timestamp := 10 * msPerHour, lead := some 50, boulder := some 60,
        overall := some 55 } rfl rfl
  rw [h]
  decide

/-- C3 counterexample: normalizing a *future* day (day 2, while `now` lies
on day 1) with one sample before closing *does* synthesize the trailing
`(closeTime, 0, 0)` point, although the day is neither strictly before the
current calendar date nor the current date — refuting the claimed
"past day or (today and past closing)" condition. -/
theorem normalizeDayData_trailing_cex :
    (normalizeDayData 0 (msPerDay + 12 * msPerHour)
        [{ timestamp := 2 * msPerDay + 10 * msPerHour, lead := some 50,
           boulder := some 50, overall := some 50 }] 2).points
      = [{ timestamp := 2 * msPerDay + 9 * msPerHour, lead := some 0, boulder := some 0 },
         { timestamp := 2 * msPerDay + 10 * msPerHour, lead := some 50, boulder := some 50 },
         { timestamp := 2 * msPerDay + 22 * msPerHour, lead := some 0, boulder := some 0 }]
    ∧ ¬ localDay 0 (2 * msPerDay) < localDay 0 (msPerDay + 12 * msPerHour)
    ∧ localDay 0 (2 * msPerDay) ≠ localDay 0 (msPerDay + 12 * msPerHour)
    ∧ ¬ localDayStart 0 (2 * msPerDay) + gymHoursEnd * msPerHour
          ≤ msPerDay + 12 * msPerHour := by
  refine ⟨by decide, by decide, by decide, by decide⟩

/-- C4 (amended): for a day with zero samples, `normalizeDayData` produces
exactly the two points `(openTime, 0, 0)` and `(closeTime, 0, 0)` when the
trailing-point condition applies — the day is not the current local
calendar date, or the current instant is at or past `closeTime` — and
exactly the one point `(openTime, 0, 0)` otherwise. -/
theorem normalizeDayData_empty (tz now dateDay : Int) :
    (normalizeDayData tz now [] dateDay).points
      = if localDay tz (dateDay * msPerDay) ≠ localDay tz now
           ∨ localDayStart tz (dateDay * msPerDay) + gymHoursEnd * msPerHour ≤ now
        then [{ timestamp := localDayStart tz (dateDay * msPerDay)
                  + gymHoursStart * msPerHour, lead := some 0, boulder := some 0 },
              { timestamp := localDayStart tz (dateDay * msPerDay)
                  + gymHoursEnd * msPerHour, lead := some 0, boulder := some 0 }]
        else [{ timestamp := localDayStart tz (dateDay * msPerDay)
                  + gymHoursStart * msPerHour, lead := some 0, boulder := some 0 }] := by
  have hSE : localDayStart tz (dateDay * msPerDay) + gymHoursStart * msPerHour
      < localDayStart tz (dateDay * msPerDay) + gymHoursEnd * msPerHour := by
    simp only [gymHoursStart, gymHoursEnd, msPerHour]
    omega
  simp only [normalizeDayData, List.map_nil]
  by_cases hG : ¬ localDay tz (dateDay * msPerDay) = localDay tz now
      ∨ (localDay tz (dateDay * msPerDay) = localDay tz now
          ∧ gymHoursEnd ≤ localHour tz now)
  · have hG' := (normalize_trailing_guard_iff tz now (dateDay * msPerDay)).mp hG
    simp [hG, hG', hSE]
  · have hG' : ¬ (localDay tz (dateDay * msPerDay) ≠ localDay tz now
        ∨ localDayStart tz (dateDay * msPerDay) + gymHoursEnd * msPerHour ≤ now) :=
      fun hc => hG ((normalize_trailing_guard_iff tz now (dateDay * msPerDay)).mpr hc)
    simp [hG, hG']

/-- C4 counterexample: an empty *future* day (day 2, `now` on day 1)
yields two points, although the claimed trailing condition — past day, or
current date with `now` past closing — does not hold there, so the claim
predicts exactly one point. -/
theorem normalizeDayData_empty_cex :
    (normalizeDayData 0 (msPerDay + 12 * msPerHour) [] 2).points.length = 2
    ∧ ¬ (localDay 0 (2 * msPerDay) < localDay 0 (msPerDay + 12 * msPerHour)
         ∨ (localDay 0 (2 * msPerDay) = localDay 0 (msPerDay + 12 * msPerHour)
            ∧ localDayStart 0 (2 * msPerDay) + gymHoursEnd * msPerHour
                ≤ msPerDay + 12 * msPerHour)) := by
  refine ⟨by decide, by decide⟩

/-- C2: broadcasting a (non-zero) `queryTime` from a source chart rewrites
every other registered, non-destroyed chart: only the local hour and
minute of `queryTime` are kept, a target instant is rebuilt from that
chart's own date (the local day of its x-axis minimum) with that
hour:minute, and the chart's cursor becomes `Active` at the target when it
lies within the chart's `[minTime, maxTime]` bounds and `Idle` otherwise;
no other chart state changes. -/
theorem syncCharts_spec (tz : Int) (charts : List SyncChart) (sourceId : Nat)
    (t : Int) (i : Nat) (c : SyncChart)
    (hget : charts.get? i = some c) (hid : c.id ≠ sourceId)
    (hdes : c.destroyed = false) (ht : t ≠ 0) :
    (syncCharts tz charts sourceId (some t)).get? i
      = some { c with crosshair :=
          if c.xMin ≤ setLocalHM tz c.xMin (localHour tz t) (localMinute tz t)
              ∧ setLocalHM tz c.xMin (localHour tz t) (localMinute tz t) ≤ c.xMax
          then Crosshair.activeAt (setLocalHM tz c.xMin (localHour tz t) (localMinute tz t))
          else Crosshair.idle } := by
  have hget' : charts[i]? = some c := by
    simpa [List.get?_eq_getElem?] using hget
  by_cases hb : c.xMin ≤ setLocalHM tz c.xMin (localHour tz t) (localMinute tz t)
      ∧ setLocalHM tz c.xMin (localHour tz t) (localMinute tz t) ≤ c.xMax
  · simp [syncCharts, syncOne, ht, List.get?_eq_getElem?, List.getElem?_map,
      hget', hid, hdes, hb]
  · simp [syncCharts, syncOne, ht, List.get?_eq_getElem?, List.getElem?_map,
      hget', hid, hdes, hb]

/-- C2 witness: hovering 10:30 local on the source chart (day 20001,
UTC+2) maps onto the peer chart for day 20000, whose bounds cover 10:30,
activating its cursor at its own date's 10:30. -/
theorem syncCharts_spec_witness :
    (({ id := 1, xMin := 20000 * msPerDay + 9 * msPerHour - 7200000,
        xMax := 20000 * msPerDay + 22 * msPerHour - 7200000,
        destroyed := false, crosshair := .idle } : SyncChart).id ≠ 0
      ∧ (20001 * msPerDay + 10 * msPerHour + 30 * msPerMinute - 7200000 : Int) ≠ 0)
    ∧ (syncCharts 7200000
        [{ id := 0, xMin := 20001 * msPerDay + 9 * msPerHour - 7200000,
           xMax := 20001 * msPerDay + 22 * msPerHour - 7200000,
           destroyed := false, crosshair := .idle },
         { id := 1, xMin := 20000 * msPerDay + 9 * msPerHour - 7200000,
           xMax := 20000 * msPerDay + 22 * msPerHour - 7200000,
           destroyed := false, crosshair := .idle }] 0
        (some (20001 * msPerDay + 10 * msPerHour + 30 * msPerMinute - 7200000))).get? 1
      = some { id := 1, xMin := 20000 * msPerDay + 9 * msPerHour - 7200000,
               xMax := 20000 * msPerDay + 22 * msPerHour - 7200000,
               destroyed := false, crosshair :=
                 .activeAt (20000 * msPerDay + 10 * msPerHour + 30 * msPerMinute - 7200000) } := by
  constructor
  · exact ⟨by decide, by decide⟩
  · have h := syncCharts_spec 7200000
      [{ id := 0, xMin := 20001 * msPerDay + 9 * msPerHour - 7200000,
         xMax := 20001 * msPerDay + 22 * msPerHour - 7200000,
         destroyed := false, crosshair := .idle },
       { id := 1, xMin := 20000 * msPerDay + 9 * msPerHour - 7200000,
         xMax := 20000 * msPerDay + 22 * msPerHour - 7200000,
         destroyed := false, crosshair := .idle }] 0
      (20001 * msPerDay + 10 * msPerHour + 30 * msPerMinute - 7200000) 1
      { id := 1, xMin := 20000 * msPerDay + 9 * msPerHour - 7200000,
        xMax := 20000 * msPerDay + 22 * msPerHour - 7200000,
        destroyed := false, crosshair := .idle }
      (by decide) (by decide) (by decide) (by decide)
    rw [h]
    decide

theorem reduceMaxBy_leftmost (val : Sample → Int) (h : Sample) (t : List Sample) :
    ∃ pre post, h :: t = pre ++ reduceMaxBy val h t :: post
      ∧ (∀ a ∈ pre, val a < val (reduceMaxBy val h t))
      ∧ (∀ a ∈ post, val a ≤ val (reduceMaxBy val h t)) := by
  induction t generalizing h with
  | nil => exact ⟨[], [], by simp [reduceMaxBy], by simp, by simp⟩
  | cons e t ih =>
      by_cases hlt : val h < val e
      · have hred : reduceMaxBy val h (e :: t) = reduceMaxBy val e t := by
          simp [reduceMaxBy, List.foldl_cons, hlt]
        obtain ⟨pre, post, hdec, hpre, hpost⟩ := ih e
        have hex : val e ≤ val (reduceMaxBy val e t) := by
          have hmem : e ∈ pre ++ reduceMaxBy val e t :: post := by
            rw [← hdec]; exact List.mem_cons_self e t
          rcases List.mem_append.mp hmem with hm | hm
          · exact le_of_lt (hpre e hm)
          · rcases List.mem_cons.mp hm with heq | hm
            · exact le_of_eq (congrArg val heq)
            · exact hpost e hm
        refine ⟨h :: pre, post, ?_, ?_, ?_⟩
        · rw [hred, List.cons_append, ← hdec]
        · intro a ha
          rw [hred]
          rcases List.mem_cons.mp ha with rfl | ha
          · exact lt_of_lt_of_le hlt hex
          · exact hpre a ha
        · intro a ha; rw [hred]; exact hpost a ha
      · have hred : reduceMaxBy val h (e :: t) = reduceMaxBy val h t := by
          simp [reduceMaxBy, List.foldl_cons, hlt]
        obtain ⟨pre, post, hdec, hpre, hpost⟩ := ih h
        cases pre with
        | nil =>
            simp only [List.nil_append] at hdec
            have hx : reduceMaxBy val h t = h := (List.cons.inj hdec.symm).1
            have hpt : post = t := (List.cons.inj hdec.symm).2
            refine ⟨[], e :: t, ?_, by simp, ?_⟩
            · rw [List.nil_append, hred, hx]
            · intro a ha
              rw [hred, hx]
              rcases List.mem_cons.mp ha with rfl | ha
              · exact le_of_not_lt hlt
              · have := hpost a (hpt ▸ ha)
                rw [hx] at this
                exact this
        | cons p pre' =>
            have hph : p = h ∧ t = pre' ++ reduceMaxBy val h t :: post := by
              have := hdec
              rw [List.cons_append] at this
              exact ⟨(List.cons.inj this).1.symm, (List.cons.inj this).2⟩
            have hhx : val h < val (reduceMaxBy val h t) := by
              have : h ∈ p :: pre' := by rw [hph.1]; exact List.mem_cons_self h pre'
              exact hpre h this
            refine ⟨h :: e :: pre', post, ?_, ?_, ?_⟩
            · rw [hred]
              simp only [List.cons_append]
              rw [← hph.2]
            · intro a ha
              rw [hred]
              rcases List.mem_cons.mp ha with rfl | ha
              · exact hhx
              · rcases List.mem_cons.mp ha with rfl | ha
                · exact lt_of_le_of_lt (le_of_not_lt hlt) hhx
                · exact hpre a (List.mem_cons_of_mem p ha)
            · intro a ha; rw [hred]; exact hpost a ha

theorem filter_eq_append_cons {α : Type} (p : α → Bool) :
    ∀ (l pre post : List α) (x : α), l.filter p = pre ++ x :: post →
      ∃ l₁ l₂, l = l₁ ++ x :: l₂ ∧ l₁.filter p = pre ∧ l₂.filter p = post := by
  intro l
  induction l with
  | nil =>
      intro pre post x h
      simp at h
  | cons a t ih =>
      intro pre post x h
      by_cases hp : p a
      · rw [List.filter_cons_of_pos hp] at h
        cases pre with
        | nil =>
            simp only [List.nil_append] at h
            have hax : a = x := (List.cons.inj h).1
            have hft : t.filter p = post := (List.cons.inj h).2
            exact ⟨[], t, by simp [hax], by simp, hft⟩
        | cons b pre' =>
            rw [List.cons_append] at h
            have hab : a = b := (List.cons.inj h).1
            have hft : t.filter p = pre' ++ x :: post := (List.cons.inj h).2
            obtain ⟨l₁, l₂, hl, hf1, hf2⟩ := ih pre' post x hft
            refine ⟨a :: l₁, l₂, by rw [List.cons_append, ← hl], ?_, hf2⟩
            rw [List.filter_cons_of_pos hp, hf1, hab]
      · rw [List.filter_cons_of_neg hp] at h
        obtain ⟨l₁, l₂, hl, hf1, hf2⟩ := ih pre post x h
        exact ⟨a :: l₁, l₂, by rw [List.cons_append, ← hl],
          by rw [List.filter_cons_of_neg hp, hf1], hf2⟩

theorem seriesQual_iff (proj : Sample → Option Int) (e : Sample) :
    seriesQual proj e = true ↔ ∃ v, proj e = some v ∧ 0 < v := by
  cases hm : proj e <;> simp [seriesQual, hm]

theorem seriesPeak_none_iff (proj : Sample → Option Int) (dayData : List Sample) :
    ((seriesPeak proj dayData).1 = none ∧ (seriesPeak proj dayData).2 = none)
      ↔ ∀ e ∈ dayData, ∀ v, proj e = some v → v ≤ 0 := by
  rcases hv : dayData.filter (seriesQual proj) with _ | ⟨h, t⟩
  · rw [List.filter_eq_nil] at hv
    simp only [seriesPeak]
    rw [List.filter_eq_nil.mpr hv]
    simp only [true_iff, and_self]
    intro e he v hev
    by_contra hlt
    exact hv e he ((seriesQual_iff proj e).mpr ⟨v, hev, lt_of_not_le hlt⟩)
  · obtain ⟨pre, post, hdec, _, _⟩ :=
      reduceMaxBy_leftmost (fun e => (proj e).getD 0) h t
    have hmemf : reduceMaxBy (fun e => (proj e).getD 0) h t
        ∈ dayData.filter (seriesQual proj) := by
      rw [hv, hdec]
      exact List.mem_append.mpr (Or.inr (List.mem_cons_self _ _))
    obtain ⟨v, hpv, hv0⟩ :=
      (seriesQual_iff proj _).mp (List.mem_filter.mp hmemf).2
    constructor
    · intro hcontr
      have h1 := hcontr.1
      simp [seriesPeak, hv, hpv] at h1
    · intro hall
      have hh : h ∈ dayData.filter (seriesQual proj) := by
        rw [hv]
        exact List.mem_cons_self h t
      obtain ⟨w, hw, hw0⟩ := (seriesQual_iff proj h).mp (List.mem_filter.mp hh).2
      have := hall h (List.mem_filter.mp hh).1 w hw
      omega

theorem seriesPeak_some (proj : Sample → Option Int) (dayData : List Sample)
    (m tm : Int) (h1 : (seriesPeak proj dayData).1 = some m)
    (h2 : (seriesPeak proj dayData).2 = some tm) :
    0 < m ∧ (∀ e ∈ dayData, ∀ v, proj e = some v → v ≤ m)
    ∧ ∃ l₁ x l₂, dayData = l₁ ++ x :: l₂ ∧ proj x = some m ∧ x.timestamp = tm
        ∧ ∀ a ∈ l₁, ∀ v, proj a = some v → v < m := by
  rcases hv : dayData.filter (seriesQual proj) with _ | ⟨h, t⟩
  · simp [seriesPeak, hv] at h1
  · have h1' : proj (reduceMaxBy (fun e => (proj e).getD 0) h t) = some m := by
      simpa [seriesPeak, hv] using h1
    have h2' : (reduceMaxBy (fun e => (proj e).getD 0) h t).timestamp = tm := by
      simpa [seriesPeak, hv] using h2
    obtain ⟨pre, post, hdec, hpre, hpost⟩ :=
      reduceMaxBy_leftmost (fun e => (proj e).getD 0) h t
    have hvalx : (proj (reduceMaxBy (fun e => (proj e).getD 0) h t)).getD 0 = m := by
      rw [h1']; rfl
    have hmemf : reduceMaxBy (fun e => (proj e).getD 0) h t
        ∈ dayData.filter (seriesQual proj) := by
      rw [hv, hdec]
      exact List.mem_append.mpr (Or.inr (List.mem_cons_self _ _))
    obtain ⟨v', hv', h0v⟩ :=
      (seriesQual_iff proj _).mp (List.mem_filter.mp hmemf).2
    have hm0 : 0 < m := by
      rw [h1'] at hv'
      have : v' = m := (Option.some.inj hv').symm
      omega
    refine ⟨hm0, ?_, ?_⟩
    · intro e he v hev
      by_cases hvpos : 0 < v
      · have hef : e ∈ dayData.filter (seriesQual proj) :=
          List.mem_filter.mpr ⟨he, (seriesQual_iff proj e).mpr ⟨v, hev, hvpos⟩⟩
        rw [hv, hdec] at hef
        have hval : (proj e).getD 0 ≤ (proj (reduceMaxBy (fun e => (proj e).getD 0) h t)).getD 0 := by
          rcases List.mem_append.mp hef with hm' | hm'
          · exact le_of_lt (hpre e hm')
          · rcases List.mem_cons.mp hm' with heq | hm'
            · rw [heq]
            · exact hpost e hm'
        rw [hev, hvalx] at hval
        exact hval
      · omega
    · obtain ⟨l₁, l₂, hld, hf1, hf2⟩ :=
        filter_eq_append_cons (seriesQual proj) dayData pre post
          (reduceMaxBy (fun e => (proj e).getD 0) h t) (by rw [hv, hdec])
      refine ⟨l₁, _, l₂, hld, h1', h2', ?_⟩
      intro a ha v hav
      by_cases hvpos : 0 < v
      · have haf : a ∈ l₁.filter (seriesQual proj) :=
          List.mem_filter.mpr ⟨ha, (seriesQual_iff proj a).mpr ⟨v, hav, hvpos⟩⟩
        rw [hf1] at haf
        have := hpre a haf
        rw [hav, hvalx] at this
        exact this
      · omega

/-- C5: per day bucket and per series, the Peak Extractor returns
`(null, null)` exactly when no sample has a non-null, strictly positive
value for that series; otherwise it returns a strictly positive maximum
that bounds every non-null value of the series, taken at the timestamp of
the first (leftmost) sample attaining it — every strictly earlier sample
has a strictly smaller value. -/
theorem calculatePeaksForDay_spec (dayData : List Sample) :
    (((calculatePeaksForDay dayData).maxLead = none
        ∧ (calculatePeaksForDay dayData).maxLeadTime = none)
      ↔ ∀ e ∈ dayData, ∀ v, e.lead = some v → v ≤ 0)
    ∧ (∀ m tm, (calculatePeaksForDay dayData).maxLead = some m →
        (calculatePeaksForDay dayData).maxLeadTime = some tm →
          0 < m ∧ (∀ e ∈ dayData, ∀ v, e.lead = some v → v ≤ m)
          ∧ ∃ l₁ x l₂, dayData = l₁ ++ x :: l₂ ∧ x.lead = some m ∧ x.timestamp = tm
              ∧ ∀ a ∈ l₁, ∀ v, a.lead = some v → v < m)
    ∧ (((calculatePeaksForDay dayData).maxBoulder = none
        ∧ (calculatePeaksForDay dayData).maxBoulderTime = none)
      ↔ ∀ e ∈ dayData, ∀ v, e.boulder = some v → v ≤ 0)
    ∧ (∀ m tm, (calculatePeaksForDay dayData).maxBoulder = some m →
        (calculatePeaksForDay dayData).maxBoulderTime = some tm →
          0 < m ∧ (∀ e ∈ dayData, ∀ v, e.boulder = some v → v ≤ m)
          ∧ ∃ l₁ x l₂, dayData = l₁ ++ x :: l₂ ∧ x.boulder = some m ∧ x.timestamp = tm
              ∧ ∀ a ∈ l₁, ∀ v, a.boulder = some v → v < m) := by
  refine ⟨?_, ?_, ?_, ?_⟩
  · exact seriesPeak_none_iff Sample.lead dayData
  · intro m tm h1 h2
    exact seriesPeak_some Sample.lead dayData m tm h1 h2
  · exact seriesPeak_none_iff Sample.boulder dayData
  · intro m tm h1 h2
    exact seriesPeak_some Sample.boulder dayData m tm h1 h2

/-- C5 witness: on a day with lead readings 0, 45, 45 (the zero filtered
out, the two 45s tied), the claim instance yields the leftmost maximum:
peak 45 at timestamp 2, with every earlier sample strictly below 45. -/
theorem calculatePeaksForDay_spec_witness :
    0 < (45 : Int)
    ∧ (∀ e ∈ [({ timestamp := 1, lead := some 0, boulder := some 5, overall := some 3 } : Sample),
              { timestamp := 2, lead := some 45, boulder := some 30, overall := some 38 },
              { timestamp := 3, lead := some 45, boulder := some 30, overall := some 38 }],
        ∀ v, e.lead = some v → v ≤ 45)
    ∧ ∃ l₁ x l₂,
        [({ timestamp := 1, lead := some 0, boulder := some 5, overall := some 3 } : Sample),
         { timestamp := 2, lead := some 45, boulder := some 30, overall := some 38 },
         { timestamp := 3, lead := some 45, boulder := some 30, overall := some 38 }]
          = l₁ ++ x :: l₂
        ∧ x.lead = some 45 ∧ x.timestamp = 2
        ∧ ∀ a ∈ l₁, ∀ v, a.lead = some v → v < 45 :=
  (calculatePeaksForDay_spec
    [{ timestamp := 1, lead := some 0, boulder := some 5, overall := some 3 },
     { timestamp := 2, lead := some 45, boulder := some 30, overall := some 38 },
     { timestamp := 3, lead := some 45, boulder := some 30, overall := some 38 }]).2.1
    45 2 (by decide) (by decide)

theorem findBracket_at_zero (l : List Int) (hp : l.Pairwise (· < ·)) (x : Int)
    (hx : l.get? 0 = some x) (hlen : 2 ≤ l.length) (k : Nat) :
    findBracket l x k = some k := by
  cases l with
  | nil => simp at hx
  | cons t0 l' =>
      cases l' with
      | nil => simp at hlen
      | cons t1 rest =>
          have hx0 : t0 = x := by simpa using hx
          subst hx0
          have h01 : t0 < t1 :=
            (List.pairwise_cons.mp hp).1 t1 (List.mem_cons_self t1 rest)
          simp [findBracket, le_of_lt h01]

theorem findBracket_at_succ (i : Nat) :
    ∀ l : List Int, l.Pairwise (· < ·) → ∀ x : Int, l.get? (i + 1) = some x →
      ∀ k : Nat, findBracket l x k = some (k + i) := by
  induction i with
  | zero =>
      intro l hp x hx k
      cases l with
      | nil => simp at hx
      | cons t0 l' =>
          cases l' with
          | nil => simp at hx
          | cons t1 rest =>
              have hx1 : t1 = x := by simpa using hx
              subst hx1
              have h01 : t0 < t1 :=
                (List.pairwise_cons.mp hp).1 t1 (List.mem_cons_self t1 rest)
              simp [findBracket, le_of_lt h01]
  | succ i ih =>
      intro l hp x hx k
      cases l with
      | nil => simp at hx
      | cons t0 l' =>
          cases l' with
          | nil => simp at hx
          | cons t1 rest =>
              have hp' : (t1 :: rest).Pairwise (· < ·) := (List.pairwise_cons.mp hp).2
              have hx' : (t1 :: rest).get? (i + 1) = some x := by simpa using hx
              have hxrest : rest.get? i = some x := by simpa using hx'
              have ht1x : t1 < x :=
                (List.pairwise_cons.mp hp').1 x (List.get?_mem hxrest)
              have hnot : ¬ (t0 ≤ x ∧ x ≤ t1) := fun hc => absurd hc.2 (not_le.mpr ht1x)
              have hrec := ih (t1 :: rest) hp' x hx' (k + 1)
              have hstep : findBracket (t0 :: t1 :: rest) x k
                  = findBracket (t1 :: rest) x (k + 1) := by
                simp [findBracket, hnot]
              rw [hstep, hrec]
              exact congrArg some (by omega)

theorem pairwise_lt_of_get? {l : List Int} (hp : l.Pairwise (· < ·))
    {i j : Nat} {a b : Int} (ha : l.get? i = some a) (hb : l.get? j = some b)
    (hij : i < j) : a < b := by
  have hi' : i < l.length := by
    obtain ⟨h, _⟩ := List.get?_eq_some.mp ha; exact h
  have hj' : j < l.length := by
    obtain ⟨h, _⟩ := List.get?_eq_some.mp hb; exact h
  have hia : l.get ⟨i, hi'⟩ = a := by
    have h2 := List.get?_eq_get hi'
    rw [ha] at h2
    exact (Option.some.inj h2).symm
  have hjb : l.get ⟨j, hj'⟩ = b := by
    have h2 := List.get?_eq_get hj'
    rw [hb] at h2
    exact (Option.some.inj h2).symm
  have hg := List.pairwise_iff_getElem.mp hp i j hi' hj' hij
  rw [List.get_eq_getElem] at hia hjb
  rw [hia, hjb] at hg
  exact hg

/-- C6 (amended): for a normalized day series with strictly increasing
timestamps, non-null values at every point, and at least two points,
querying `getInterpolatedValues` at exactly the `i`-th point's timestamp
returns that point's own lead and boulder values (the interpolation factor
degenerates to 0 at the first point and to 1 elsewhere). -/
theorem getInterpolatedValues_at_point (nd : NormalizedDay) (i : Nat) (p : NormPoint)
    (hp : (nd.points.map NormPoint.timestamp).Pairwise (· < ·))
    (hvals : ∀ q ∈ nd.points, q.lead.isSome ∧ q.boulder.isSome)
    (hlen : 2 ≤ nd.points.length)
    (hget : nd.points.get? i = some p) :
    getInterpolatedValues (toChartSeries nd) p.timestamp
      = some (((p.lead.getD 0 : Int) : ℚ), ((p.boulder.getD 0 : Int) : ℚ)) := by
  obtain ⟨lv, hlv⟩ := Option.isSome_iff_exists.mp (hvals p (List.get?_mem hget)).1
  obtain ⟨bv, hbv⟩ := Option.isSome_iff_exists.mp (hvals p (List.get?_mem hget)).2
  rcases i with _ | j
  · -- first point: factor 0
    have h1lt : 1 < nd.points.length := by omega
    have hp1 : nd.points.get? 1 = some (nd.points.get ⟨1, h1lt⟩) :=
      List.get?_eq_get h1lt
    set p1 := nd.points.get ⟨1, h1lt⟩ with hp1def
    obtain ⟨lv1, hlv1⟩ := Option.isSome_iff_exists.mp (hvals p1 (List.get?_mem hp1)).1
    obtain ⟨bv1, hbv1⟩ := Option.isSome_iff_exists.mp (hvals p1 (List.get?_mem hp1)).2
    have hlab0 : (nd.points.map NormPoint.timestamp).get? 0 = some p.timestamp := by
      rw [List.get?_map, hget]; rfl
    have hlab1 : (nd.points.map NormPoint.timestamp).get? 1 = some p1.timestamp := by
      rw [List.get?_map, hp1]; rfl
    have hfb : findBracket (nd.points.map NormPoint.timestamp) p.timestamp 0 = some 0 :=
      findBracket_at_zero _ hp _ hlab0 (by simpa using hlen) 0
    have hplt : p.timestamp < p1.timestamp :=
      pairwise_lt_of_get? hp hlab0 hlab1 (by omega)
    have hrange : p1.timestamp - p.timestamp ≠ 0 := by omega
    simp only [getInterpolatedValues, toChartSeries, hfb]
    rw [List.getD_eq_get?, List.getD_eq_get?, List.getD_eq_get?, List.getD_eq_get?,
      List.getD_eq_get?, List.getD_eq_get?]
    rw [List.get?_map, List.get?_map, List.get?_map, List.get?_map,
      List.get?_map, List.get?_map, hget, hp1]
    simp only [Option.map_some', Option.getD_some, hlv, hbv, hlv1, hbv1]
    rw [if_neg hrange]
    simp [interpolateValue, hlv, hbv]
  · -- later point: factor 1
    have hjlt : j < nd.points.length := by
      obtain ⟨hlt, _⟩ := List.get?_eq_some.mp hget
      omega
    have hpj : nd.points.get? j = some (nd.points.get ⟨j, hjlt⟩) :=
      List.get?_eq_get hjlt
    set pj := nd.points.get ⟨j, hjlt⟩ with hpjdef
    obtain ⟨lvj, hlvj⟩ := Option.isSome_iff_exists.mp (hvals pj (List.get?_mem hpj)).1
    obtain ⟨bvj, hbvj⟩ := Option.isSome_iff_exists.mp (hvals pj (List.get?_mem hpj)).2
    have hlabj : (nd.points.map NormPoint.timestamp).get? j = some pj.timestamp := by
      rw [List.get?_map, hpj]; rfl
    have hlabj1 : (nd.points.map NormPoint.timestamp).get? (j + 1) = some p.timestamp := by
      rw [List.get?_map, hget]; rfl
    have hfb : findBracket (nd.points.map NormPoint.timestamp) p.timestamp 0 = some j := by
      have := findBracket_at_succ j (nd.points.map NormPoint.timestamp) hp
        p.timestamp hlabj1 0
      simpa using this
    have hplt : pj.timestamp < p.timestamp :=
      pairwise_lt_of_get? hp hlabj hlabj1 (by omega)
    have hrange : p.timestamp - pj.timestamp ≠ 0 := by omega
    have hrangeQ : ((p.timestamp - pj.timestamp : Int) : ℚ) ≠ 0 := by
      exact_mod_cast hrange
    simp only [getInterpolatedValues, toChartSeries, hfb]
    rw [List.getD_eq_get?, List.getD_eq_get?, List.getD_eq_get?, List.getD_eq_get?,
      List.getD_eq_get?, List.getD_eq_get?]
    rw [List.get?_map, List.get?_map, List.get?_map, List.get?_map,
      List.get?_map, List.get?_map, hget, hpj]
    simp only [Option.map_some', Option.getD_some, hlv, hbv, hlvj, hbvj]
    rw [if_neg hrange, div_self hrangeQ]
    simp only [interpolateValue, hlv, hbv]
    have e1 : (lvj : ℚ) + ((lv : ℚ) - (lvj : ℚ)) * 1 = (lv : ℚ) := by ring
    have e2 : (bvj : ℚ) + ((bv : ℚ) - (bvj : ℚ)) * 1 = (bv : ℚ) := by ring
    rw [e1, e2]

/-- C6 counterexample: a live day with no samples normalizes to the single
point `(openTime, 0, 0)` (index 0 of the series), but querying the
interpolation engine at exactly that point's timestamp returns `null`
rather than the point's own values, because the bracketing scan needs two
points — refuting the claim at every one-point normalized series. -/
theorem getInterpolatedValues_single_point_cex :
    (normalizeDayData 0 (12 * msPerHour) [] 0).points
      = [{ timestamp := 9 * msPerHour, lead := some 0, boulder := some 0 }]
    ∧ getInterpolatedValues (toChartSeries (normalizeDayData 0 (12 * msPerHour) [] 0))
        (9 * msPerHour) = none := by
  refine ⟨by decide, by decide⟩

/-- C6 witness: the three-point normalized series of a past-closing day
with one sample `(10:00, 50, 60)`, queried at exactly 10:00, returns that
sample's own values. -/
theorem getInterpolatedValues_at_point_witness :
    getInterpolatedValues
        (toChartSeries (normalizeDayData 0 (23 * msPerHour)
          [{ timestamp := 10 * msPerHour, lead := some 50, boulder := some 60,
             overall := some 55 }] 0))
        (10 * msPerHour)
      = some ((50 : ℚ), (60 : ℚ)) := by
  have h := getInterpolatedValues_at_point
    (normalizeDayData 0 (23 * msPerHour)
      [{ timestamp := 10 * msPerHour, lead := some 50, boulder := some 60,
         overall := some 55 }] 0)
    1 { timestamp := 10 * msPerHour, lead := some 50, boulder := some 60 }
    (by decide) (by decide) (by decide) (by decide)
  simpa using h

/-- C9 witness: with `now` at day 10, retention 7 days, a sample from
2 days ago survives pruning and a sample from 8 days ago is removed. -/
theorem pruneOldData_spec_witness :
    ({ timestamp := 8 * msPerDay, lead := some 1, boulder := some 1,
       overall := some 1 } : Sample).timestamp = 10 * msPerDay - 2 * msPerDay
    ∧ ({ timestamp := 2 * msPerDay, lead := some 2, boulder := some 2,
         overall := some 2 } : Sample).timestamp = 10 * msPerDay - 8 * msPerDay
    ∧ pruneOldData (10 * msPerDay)
        [{ timestamp := 8 * msPerDay, lead := some 1, boulder := some 1,
           overall := some 1 },
         { timestamp := 2 * msPerDay, lead := some 2, boulder := some 2,
           overall := some 2 }] 7
      = [{ timestamp := 8 * msPerDay, lead := some 1, boulder := some 1,
           overall := some 1 }] :=
  ⟨by decide, by decide,
    (pruneOldData_spec (10 * msPerDay)
      [{ timestamp := 8 * msPerDay, lead := some 1, boulder := some 1,
         overall := some 1 },
       { timestamp := 2 * msPerDay, lead := some 2, boulder := some 2,
         overall := some 2 }] 7).2.2
      { timestamp := 8 * msPerDay, lead := some 1, boulder := some 1,
        overall := some 1 }
      { timestamp := 2 * msPerDay, lead := some 2, boulder := some 2,
        overall := some 2 } (by decide) (by decide)⟩

theorem pruneOldData_getLast_concat (now : Int) (l : List Sample) (m : Sample)
    (hm : now - maxDays * msPerDay < m.timestamp) :
    (pruneOldData now (l ++ [m]) maxDays).getLast? = some m := by
  have hfm : (List.filter
      (fun e => decide (now - maxDays * msPerDay < e.timestamp)) [m]) = [m] := by
    simp [List.filter, hm]
  rw [pruneOldData, List.filter_append, hfm]
  exact List.getLast?_append_of_ne_nil _ (by simp)

/-- C10: if `collect` runs while the gym is closed per the configured
hours (standard 9-22 plus the date-keyed holiday exceptions), it appends
the zero marker `(lead 0, boulder 0, overall 0)` and rewrites the files
exactly when the history's last entry does not have `overall = 0`; when
the last entry's `overall` is already 0 it returns without appending and
without writing; and after any closed-hours write the new history ends in
the zero marker, so a subsequent closed-hours run skips — consecutive zero
markers never accumulate. -/
theorem collect_closed_spec (tz now : Int) (scraped : Option Sample)
    (history : List Sample) (hclosed : isGymOpen tz now = false) :
    (∀ e, history.getLast? = some e → e.overall = some 0 →
        collect tz now scraped history = .skipped)
    ∧ ((∀ e, history.getLast? = some e → e.overall ≠ some 0) →
        collect tz now scraped history
          = .wrote (pruneOldData now (history ++ [zeroMarker now]) maxDays)
              (zeroMarker now))
    ∧ (∀ h' s', collect tz now scraped history = .wrote h' s' →
        h'.getLast? = some (zeroMarker now)
        ∧ ∀ now' scraped', isGymOpen tz now' = false →
            collect tz now' scraped' h' = .skipped) := by
  refine ⟨?_, ?_, ?_⟩
  · intro e he hz
    simp [collect, hclosed, he, hz]
  · intro hne
    rcases hl : history.getLast? with _ | e
    · simp [collect, hclosed, hl]
    · have := hne e hl
      simp [collect, hclosed, hl, this]
  · intro h' s' hw
    have hmark : now - maxDays * msPerDay < (zeroMarker now).timestamp := by
      simp only [zeroMarker, maxDays, msPerDay]
      omega
    have hh' : h' = pruneOldData now (history ++ [zeroMarker now]) maxDays := by
      rcases hl : history.getLast? with _ | e
      · simp [collect, hclosed, hl] at hw
        exact hw.1.symm
      · by_cases hz : e.overall = some 0
        · simp [collect, hclosed, hl, hz] at hw
        · simp [collect, hclosed, hl, hz] at hw
          exact hw.1.symm
    have hlast : h'.getLast? = some (zeroMarker now) := by
      rw [hh']
      exact pruneOldData_getLast_concat now history (zeroMarker now) hmark
    refine ⟨hlast, ?_⟩
    intro now' scraped' hclosed'
    simp [collect, hclosed', hlast, zeroMarker]

/-- C10 witness: on December 25 at 10:00 local time the gym is closed (the
holiday exception sets hours 14-22, overriding the standard 9-22); a run
over an empty history writes the zero marker, and a second closed run over
the written history skips. -/
theorem collect_closed_spec_witness :
    isGymOpen 0 (20447 * msPerDay + 10 * msPerHour) = false
    ∧ collect 0 (20447 * msPerDay + 10 * msPerHour) none []
        = .wrote [zeroMarker (20447 * msPerDay + 10 * msPerHour)]
            (zeroMarker (20447 * msPerDay + 10 * msPerHour))
    ∧ collect 0 (20447 * msPerDay + 11 * msPerHour) none
        [zeroMarker (20447 * msPerDay + 10 * msPerHour)] = .skipped := by
  have hclosed : isGymOpen 0 (20447 * msPerDay + 10 * msPerHour) = false := by decide
  have h := collect_closed_spec 0 (20447 * msPerDay + 10 * msPerHour) none [] hclosed
  refine ⟨hclosed, ?_, ?_⟩
  · have hw := h.2.1 (fun e he => by simp at he)
    rw [hw]
    decide
  · have hw := h.2.1 (fun e he => by simp at he)
    have hsec := (h.2.2 _ _ hw).2 (20447 * msPerDay + 11 * msPerHour) none (by decide)
    have hlist : pruneOldData (20447 * msPerDay + 10 * msPerHour)
        ([] ++ [zeroMarker (20447 * msPerDay + 10 * msPerHour)]) maxDays
        = [zeroMarker (20447 * msPerDay + 10 * msPerHour)] := by decide
    rw [hlist] at hsec
    exact hsec

end KITracker
